import Mathlib

/-!
Shallow embedding of `src/src/MotionVec.h` from SpaceVecAlg: the spatial
motion vector type `sva::MotionVec<T>`, its constructors, accessors and
operators, together with models of the external fixed-size column types it
consumes (Eigen `Vector3<T>` / `Vector6<T>`) and of the external dual type
`sva::ForceVec<T>`.  The scalar type `T` is embedded as an arbitrary
commutative ring `R`.
-/

namespace SpaceVecAlg

/-- Model of the external 3-element numeric column type (`Vector3<T>` in the
source), the primitive consumed at the library boundary. -/
structure Vector3 (R : Type) where
  x : R
  y : R
  z : R
deriving DecidableEq

/-- Model of the external 6-element numeric column type (`Vector6<T>` in the
source); components in storage order, element 0 first. -/
structure Vector6 (R : Type) where
  e0 : R
  e1 : R
  e2 : R
  e3 : R
  e4 : R
  e5 : R
deriving DecidableEq

variable {R : Type}

/-- Elementwise sum of two 3-element columns (external primitive). -/
def Vector3.add [CommRing R] (a b : Vector3 R) : Vector3 R :=
  ⟨a.x + b.x, a.y + b.y, a.z + b.z⟩

/-- The 3D cross product on 3-element columns (external primitive,
Eigen `cross`). -/
def Vector3.crossProd [CommRing R] (a b : Vector3 R) : Vector3 R :=
  ⟨a.y * b.z - a.z * b.y, a.z * b.x - a.x * b.z, a.x * b.y - a.y * b.x⟩

/-- The euclidean dot product on 3-element columns (external primitive,
Eigen `dot`). -/
def Vector3.dotProd [CommRing R] (a b : Vector3 R) : R :=
  a.x * b.x + a.y * b.y + a.z * b.z

/-- Elementwise sum of two 6-element columns (external primitive). -/
def Vector6.add [CommRing R] (a b : Vector6 R) : Vector6 R :=
  ⟨a.e0 + b.e0, a.e1 + b.e1, a.e2 + b.e2, a.e3 + b.e3, a.e4 + b.e4, a.e5 + b.e5⟩

/-- Elementwise difference of two 6-element columns (external primitive). -/
def Vector6.sub [CommRing R] (a b : Vector6 R) : Vector6 R :=
  ⟨a.e0 - b.e0, a.e1 - b.e1, a.e2 - b.e2, a.e3 - b.e3, a.e4 - b.e4, a.e5 - b.e5⟩

/-- Elementwise negation of a 6-element column (external primitive). -/
def Vector6.neg [CommRing R] (a : Vector6 R) : Vector6 R :=
  ⟨-a.e0, -a.e1, -a.e2, -a.e3, -a.e4, -a.e5⟩

/-- Elementwise scaling `scalar * vec` of a 6-element column
(external primitive). -/
def Vector6.smul [CommRing R] (k : R) (a : Vector6 R) : Vector6 R :=
  ⟨k * a.e0, k * a.e1, k * a.e2, k * a.e3, k * a.e4, k * a.e5⟩

/-- First three components of a 6-element column (external primitive,
Eigen `head<3>()`). -/
def Vector6.head3 (a : Vector6 R) : Vector3 R :=
  ⟨a.e0, a.e1, a.e2⟩

/-- Last three components of a 6-element column (external primitive,
Eigen `tail<3>()`). -/
def Vector6.tail3 (a : Vector6 R) : Vector3 R :=
  ⟨a.e3, a.e4, a.e5⟩

/-- Concatenation of two 3-element columns into a 6-element column
(external primitive, the comma initializer `(vector6_t() << a, l).finished()`). -/
def Vector6.ofHeadTail (a l : Vector3 R) : Vector6 R :=
  ⟨a.x, a.y, a.z, l.x, l.y, l.z⟩

/-- All six corresponding components compare equal (external primitive,
Eigen matrix `operator==`: coefficient-wise equality combined with `all()`). -/
def Vector6.eqAll [DecidableEq R] (a b : Vector6 R) : Bool :=
  decide (a.e0 = b.e0) && decide (a.e1 = b.e1) && decide (a.e2 = b.e2) &&
    decide (a.e3 = b.e3) && decide (a.e4 = b.e4) && decide (a.e5 = b.e5)

/-- Some corresponding component compares unequal (external primitive,
Eigen matrix `operator!=`: coefficient-wise inequality combined with `any()`). -/
def Vector6.neqAny [DecidableEq R] (a b : Vector6 R) : Bool :=
  decide (a.e0 ≠ b.e0) || decide (a.e1 ≠ b.e1) || decide (a.e2 ≠ b.e2) ||
    decide (a.e3 ≠ b.e3) || decide (a.e4 ≠ b.e4) || decide (a.e5 ≠ b.e5)

/-- The spatial motion vector `sva::MotionVec<T>`: a single 6-element column
`mv_`, angular part in the head and linear part in the tail. -/
structure MotionVec (R : Type) where
  mv_ : Vector6 R
deriving DecidableEq

/-- Modelled from the spec: the external dual type `sva::ForceVec<T>` (spatial
force vector) is not among the provided sources; per the spec it is a
6-element column with moment in the head and force in the tail. -/
structure ForceVec (R : Type) where
  fv_ : Vector6 R
deriving DecidableEq

/-- Constructor `MotionVec(const vector6_t& vec)`: the 6-element column is
stored verbatim. -/
def MotionVec.ofVector (vec : Vector6 R) : MotionVec R :=
  ⟨vec⟩

/-- Constructor `MotionVec(const vector3_t& angular, const vector3_t& linear)`:
the two 3-element columns are concatenated, angular first. -/
def MotionVec.ofParts (angular linear : Vector3 R) : MotionVec R :=
  ⟨Vector6.ofHeadTail angular linear⟩

/-- Accessor `angular()`: the first 3 components (`mv_.head<3>()`). -/
def MotionVec.angular (v : MotionVec R) : Vector3 R :=
  v.mv_.head3

/-- Accessor `linear()`: the last 3 components (`mv_.tail<3>()`). -/
def MotionVec.linear (v : MotionVec R) : Vector3 R :=
  v.mv_.tail3

/-- Accessor `vector()`: the full 6-element column. -/
def MotionVec.vector (v : MotionVec R) : Vector6 R :=
  v.mv_

/-- Operator `MotionVec<T> operator+(const MotionVec<T>&)`:
`MotionVec<T>(mv_ + mv.mv_)`. -/
def MotionVec.add [CommRing R] (v w : MotionVec R) : MotionVec R :=
  ⟨Vector6.add v.mv_ w.mv_⟩

/-- Operator `MotionVec<T> operator-(const MotionVec<T>&)`:
`MotionVec<T>(mv_ - mv.mv_)`. -/
def MotionVec.sub [CommRing R] (v w : MotionVec R) : MotionVec R :=
  ⟨Vector6.sub v.mv_ w.mv_⟩

/-- Unary operator `MotionVec<T> operator-()`: `MotionVec<T>(-mv_)`. -/
def MotionVec.neg [CommRing R] (v : MotionVec R) : MotionVec R :=
  ⟨Vector6.neg v.mv_⟩

/-- Member operator `MotionVec<T> operator*(T2 scalar)`:
`MotionVec<T>(scalar * mv_)`. -/
def MotionVec.mulScalar [CommRing R] (v : MotionVec R) (scalar : R) : MotionVec R :=
  ⟨Vector6.smul scalar v.mv_⟩

/-- Free operator `MotionVec<T> operator*(T2 scalar, const MotionVec<T>& mv)`:
returns `mv * scalar`. -/
def MotionVec.scalarMul [CommRing R] (scalar : R) (v : MotionVec R) : MotionVec R :=
  MotionVec.mulScalar v scalar

/-- Operator `bool operator==(const MotionVec<T>&)`: `mv_ == mv.mv_`. -/
def MotionVec.beq [DecidableEq R] (v w : MotionVec R) : Bool :=
  Vector6.eqAll v.mv_ w.mv_

/-- Operator `bool operator!=(const MotionVec<T>&)`: `mv_ != mv.mv_`. -/
def MotionVec.bne [DecidableEq R] (v w : MotionVec R) : Bool :=
  Vector6.neqAny v.mv_ w.mv_

/-- Modelled from the spec: accessor for the moment part (head) of the
external `sva::ForceVec<T>`, whose definition is not among the provided
sources. -/
def ForceVec.moment (f : ForceVec R) : Vector3 R :=
  f.fv_.head3

/-- Modelled from the spec: accessor for the force part (tail) of the
external `sva::ForceVec<T>`, whose definition is not among the provided
sources. -/
def ForceVec.force (f : ForceVec R) : Vector3 R :=
  f.fv_.tail3

/-- Modelled from the spec: constructor of the external `sva::ForceVec<T>`
from its moment and force parts, moment first. -/
def ForceVec.ofParts (moment force : Vector3 R) : ForceVec R :=
  ⟨Vector6.ofHeadTail moment force⟩

/-- Modelled from the spec: the body of `MotionVec<T>::cross` is only declared
in `src/src/MotionVec.h`; the spec's design contract states that for
`a = (aw, av)` and `b = (bw, bv)` the result's angular part is `aw x bw` and
its linear part is `aw x bv + av x bw`. -/
def MotionVec.cross [CommRing R] (a b : MotionVec R) : MotionVec R :=
  MotionVec.ofParts (Vector3.crossProd a.angular b.angular)
    (Vector3.add (Vector3.crossProd a.angular b.linear)
      (Vector3.crossProd a.linear b.angular))

/-- Modelled from the spec: the body of `MotionVec<T>::crossDual` is only
declared in `src/src/MotionVec.h`; the spec's design contract states that for
motion `a = (aw, av)` and force `f = (fm, ff)` the result's moment part is
`aw x fm + av x ff` and its force part is `aw x ff`. -/
def MotionVec.crossDual [CommRing R] (a : MotionVec R) (f : ForceVec R) : ForceVec R :=
  ForceVec.ofParts
    (Vector3.add (Vector3.crossProd a.angular f.moment)
      (Vector3.crossProd a.linear f.force))
    (Vector3.crossProd a.angular f.force)

/-- Modelled from the spec: the body of `MotionVec<T>::dot` is only declared
in `src/src/MotionVec.h`; the spec states it computes `aw . fm + av . ff`,
the bilinear pairing of the motion's angular part with the force's moment
part plus the motion's linear part with the force's force part. -/
def MotionVec.dot [CommRing R] (v : MotionVec R) (f : ForceVec R) : R :=
  Vector3.dotProd v.angular f.moment + Vector3.dotProd v.linear f.force

/-- The zero motion vector: all 6 components zero. -/
def MotionVec.zero [CommRing R] : MotionVec R :=
  ⟨⟨0, 0, 0, 0, 0, 0⟩⟩

theorem Vector6.eqAll_iff [DecidableEq R] (a b : Vector6 R) :
    Vector6.eqAll a b = true ↔ a = b := by
  obtain ⟨a0, a1, a2, a3, a4, a5⟩ := a
  obtain ⟨b0, b1, b2, b3, b4, b5⟩ := b
  simp [Vector6.eqAll, Vector6.mk.injEq, and_assoc]

theorem Vector6.neqAny_iff [DecidableEq R] (a b : Vector6 R) :
    Vector6.neqAny a b = true ↔ ¬a = b := by
  obtain ⟨a0, a1, a2, a3, a4, a5⟩ := a
  obtain ⟨b0, b1, b2, b3, b4, b5⟩ := b
  simp [Vector6.neqAny, Vector6.mk.injEq]
  tauto

/-- C1: for all motion vectors `a = (aw, av)` and `b = (bw, bv)`, `a.cross(b)`
has angular part the 3D cross product `aw x bw` and linear part
`aw x bv + av x bw`; in particular `a = ((0,0,1),(1,0,0))` and
`b = ((0,1,0),(0,0,1))` give `a.cross(b) = ((-1,0,0),(0,0,1))`. -/
theorem cross_contract_and_example :
    (∀ (R : Type) [CommRing R] (a b : MotionVec R),
      MotionVec.angular (MotionVec.cross a b) =
          Vector3.crossProd (MotionVec.angular a) (MotionVec.angular b) ∧
        MotionVec.linear (MotionVec.cross a b) =
          Vector3.add (Vector3.crossProd (MotionVec.angular a) (MotionVec.linear b))
            (Vector3.crossProd (MotionVec.linear a) (MotionVec.angular b))) ∧
    MotionVec.cross (MotionVec.ofParts ⟨(0 : ℤ), 0, 1⟩ ⟨1, 0, 0⟩)
        (MotionVec.ofParts ⟨0, 1, 0⟩ ⟨0, 0, 1⟩) =
      MotionVec.ofParts ⟨-1, 0, 0⟩ ⟨0, 0, 1⟩ :=
  ⟨fun _ _ _ _ => ⟨rfl, rfl⟩, by decide⟩

/-- C2: for every motion vector `a = (aw, av)` and force vector `f = (fm, ff)`,
`a.crossDual(f)` has moment part `aw x fm + av x ff` and force part
`aw x ff`. -/
theorem crossDual_contract :
    ∀ (R : Type) [CommRing R] (a : MotionVec R) (f : ForceVec R),
      ForceVec.moment (MotionVec.crossDual a f) =
          Vector3.add (Vector3.crossProd (MotionVec.angular a) (ForceVec.moment f))
            (Vector3.crossProd (MotionVec.linear a) (ForceVec.force f)) ∧
        ForceVec.force (MotionVec.crossDual a f) =
          Vector3.crossProd (MotionVec.angular a) (ForceVec.force f) :=
  fun _ _ _ _ => ⟨rfl, rfl⟩

/-- C3: for all motion vectors `a, b` and every force vector `f`, the adjoint
identity `(a.cross(b)).dot(f) = -(b.dot(a.crossDual(f)))` holds. -/
theorem cross_crossDual_adjoint :
    ∀ (R : Type) [CommRing R] (a b : MotionVec R) (f : ForceVec R),
      MotionVec.dot (MotionVec.cross a b) f =
        -(MotionVec.dot b (MotionVec.crossDual a f)) := by
  intro R _ a b f
  obtain ⟨⟨a0, a1, a2, a3, a4, a5⟩⟩ := a
  obtain ⟨⟨b0, b1, b2, b3, b4, b5⟩⟩ := b
  obtain ⟨⟨f0, f1, f2, f3, f4, f5⟩⟩ := f
  simp only [MotionVec.dot, MotionVec.cross, MotionVec.crossDual, MotionVec.ofParts,
    ForceVec.ofParts, MotionVec.angular, MotionVec.linear, ForceVec.moment, ForceVec.force,
    Vector6.head3, Vector6.tail3, Vector6.ofHeadTail, Vector3.add, Vector3.crossProd,
    Vector3.dotProd]
  ring

/-- C4: for every motion vector `v` and force vector `f`, `v.dot(f)` is the
scalar `v.angular . f.moment + v.linear . f.force`, equivalently the sum over
the six storage components of the elementwise products. -/
theorem dot_contract :
    ∀ (R : Type) [CommRing R] (v : MotionVec R) (f : ForceVec R),
      MotionVec.dot v f =
          Vector3.dotProd (MotionVec.angular v) (ForceVec.moment f) +
            Vector3.dotProd (MotionVec.linear v) (ForceVec.force f) ∧
        MotionVec.dot v f =
          v.mv_.e0 * f.fv_.e0 + v.mv_.e1 * f.fv_.e1 + v.mv_.e2 * f.fv_.e2 +
            v.mv_.e3 * f.fv_.e3 + v.mv_.e4 * f.fv_.e4 + v.mv_.e5 * f.fv_.e5 := by
  intro R _ v f
  refine ⟨rfl, ?_⟩
  simp only [MotionVec.dot, MotionVec.angular, MotionVec.linear, ForceVec.moment,
    ForceVec.force, Vector6.head3, Vector6.tail3, Vector3.dotProd]
  ring

/-- C6: for every motion vector `v`, `v.cross(v)` is the zero motion vector,
all 6 components zero. -/
theorem cross_self_eq_zero :
    ∀ (R : Type) [CommRing R] (v : MotionVec R),
      MotionVec.cross v v = MotionVec.zero := by
  intro R _ v
  obtain ⟨⟨a0, a1, a2, a3, a4, a5⟩⟩ := v
  simp only [MotionVec.cross, MotionVec.zero, MotionVec.ofParts, MotionVec.angular,
    MotionVec.linear, Vector6.head3, Vector6.tail3, Vector6.ofHeadTail, Vector3.add,
    Vector3.crossProd, MotionVec.mk.injEq, Vector6.mk.injEq]
  refine ⟨by ring, by ring, by ring, by ring, by ring, by ring⟩

/-- C7: for all motion vectors `a` and `b`, `a.cross(b)` equals the
elementwise negation `-(b.cross(a))`. -/
theorem cross_antisymm :
    ∀ (R : Type) [CommRing R] (a b : MotionVec R),
      MotionVec.cross a b = MotionVec.neg (MotionVec.cross b a) := by
  intro R _ a b
  obtain ⟨⟨a0, a1, a2, a3, a4, a5⟩⟩ := a
  obtain ⟨⟨b0, b1, b2, b3, b4, b5⟩⟩ := b
  simp only [MotionVec.cross, MotionVec.neg, MotionVec.ofParts, MotionVec.angular,
    MotionVec.linear, Vector6.head3, Vector6.tail3, Vector6.ofHeadTail, Vector6.neg,
    Vector3.add, Vector3.crossProd, MotionVec.mk.injEq, Vector6.mk.injEq]
  refine ⟨by ring, by ring, by ring, by ring, by ring, by ring⟩

/-- C8: constructing `MotionVec(a, l)` from angular `a` and linear `l` and
reading back with `angular()` / `linear()` returns `a` and `l` exactly; the
constructor stores angular in components 0-2 and linear in components 3-5. -/
theorem ofParts_roundtrip :
    ∀ (R : Type) (a l : Vector3 R),
      MotionVec.angular (MotionVec.ofParts a l) = a ∧
        MotionVec.linear (MotionVec.ofParts a l) = l ∧
        MotionVec.ofParts a l =
          MotionVec.mk ⟨a.x, a.y, a.z, l.x, l.y, l.z⟩ :=
  fun _ _ _ => ⟨rfl, rfl, rfl⟩

/-- C9: for every scalar `k` and motion vector `v`, the free operator
`k * v` and the member operator `v * k` yield the same motion vector, whose
components are the components of `v` each scaled by `k`. -/
theorem scalar_mul_comm :
    ∀ (R : Type) [CommRing R] (k : R) (v : MotionVec R),
      MotionVec.scalarMul k v = MotionVec.mulScalar v k ∧
        MotionVec.mulScalar v k =
          MotionVec.mk ⟨k * v.mv_.e0, k * v.mv_.e1, k * v.mv_.e2, k * v.mv_.e3,
            k * v.mv_.e4, k * v.mv_.e5⟩ :=
  fun _ _ _ _ => ⟨rfl, rfl⟩

/-- C10: equality on motion vectors is exact elementwise comparison:
`v == w` holds iff all 6 corresponding components are equal; `v == v` always
holds; `v == w` iff `w == v`; and `v != w` holds iff `v == w` does not. -/
theorem eq_exact_elementwise :
    ∀ (R : Type) [DecidableEq R] (v w : MotionVec R),
      (MotionVec.beq v w = true ↔
          v.mv_.e0 = w.mv_.e0 ∧ v.mv_.e1 = w.mv_.e1 ∧ v.mv_.e2 = w.mv_.e2 ∧
            v.mv_.e3 = w.mv_.e3 ∧ v.mv_.e4 = w.mv_.e4 ∧ v.mv_.e5 = w.mv_.e5) ∧
        MotionVec.beq v v = true ∧
        (MotionVec.beq v w = true ↔ MotionVec.beq w v = true) ∧
        (MotionVec.bne v w = true ↔ ¬MotionVec.beq v w = true) := by
  intro R _ v w
  refine ⟨?_, ?_, ?_, ?_⟩
  · rw [MotionVec.beq, Vector6.eqAll_iff]
    obtain ⟨⟨v0, v1, v2, v3, v4, v5⟩⟩ := v
    obtain ⟨⟨w0, w1, w2, w3, w4, w5⟩⟩ := w
    simp [Vector6.mk.injEq]
  · rw [MotionVec.beq, Vector6.eqAll_iff]
  · rw [MotionVec.beq, MotionVec.beq, Vector6.eqAll_iff, Vector6.eqAll_iff]
    exact eq_comm
  · rw [MotionVec.bne, MotionVec.beq, Vector6.neqAny_iff, Vector6.eqAll_iff]

end SpaceVecAlg
